import Mathlib

/-!
Shallow embedding of `scripts/watch_downloads.py`: a watcher that relocates
files named `*.data.json` from a downloads directory to a target directory.

Filesystem state is modelled as a finite set of existing paths; exceptions
that the underlying I/O primitives may raise are supplied by an oracle; every
filesystem operation the code attempts is recorded in an operation trace.
-/

namespace WatchDownloads

/-- Python's `str.endswith`: `suf` is a suffix of `s`. -/
def strEndsWith (s suf : String) : Bool :=
  List.isPrefixOf suf.data.reverse s.data.reverse

/-- `os.path.basename`: the part of the path after the last `/`. -/
def basename (p : String) : String :=
  ⟨(p.data.reverse.takeWhile (fun c => c ≠ '/')).reverse⟩

/-- `os.path.join` for a directory and a file name. -/
def joinPath (d f : String) : String := d ++ "/" ++ f

/-- The filesystem operations attempted by the script, in the order the code
issues them. -/
inductive Op where
  | existsCheck (p : String)
  | sleepOp
  | copyOp (src tgt : String)
  | unlinkOp (p : String)
  | makedirsOp (d : String)
  deriving DecidableEq, Repr

/-- Whether an operation is a copy. -/
def Op.isCopy : Op → Bool
  | .copyOp _ _ => true
  | _ => false

/-- Whether an operation is a delete (`os.unlink`). -/
def Op.isUnlink : Op → Bool
  | .unlinkOp _ => true
  | _ => false

/-- Whether an operation is a `makedirs`. -/
def Op.isMakedirs : Op → Bool
  | .makedirsOp _ => true
  | _ => false

/-- Exception oracle for one `_process_file` call: for each fallible
primitive, `none` means it succeeds, `some msg` means it raises with that
message. -/
structure Oracle where
  existsRaise : Option String
  sleepRaise : Option String
  copyRaise : Option String
  unlinkRaise : Option String
  deriving DecidableEq, Repr

/-- The oracle on which no primitive raises. -/
def okOracle : Oracle := ⟨none, none, none, none⟩

/-- Filesystem: the set of paths at which a file currently exists. -/
structure FS where
  files : Finset String
  deriving DecidableEq

/-- State of a `DownloadsHandler`: the target directory and the seen-set
`processed_files`. -/
structure Handler where
  target_dir : String
  processed_files : Finset String
  deriving DecidableEq

/-- Result of one `_process_file` call: the new handler state, the new
filesystem, the trace of attempted operations, and the caught exception
message if the `try` block raised. -/
structure PFResult where
  handler : Handler
  fs : FS
  ops : List Op
  caught : Option String
  deriving DecidableEq

/-- `DownloadsHandler._process_file`, translated line by line.  The seen-set
check comes first; inside the `try` block the code checks existence, sleeps,
copies (overwriting), unlinks, records the path in the seen-set and clears
the seen-set when its size exceeds 1000; any exception is caught, logged and
turned into a normal return. -/
def processFile (o : Oracle) (h : Handler) (fs : FS) (file_path : String) : PFResult :=
  if file_path ∈ h.processed_files then
    ⟨h, fs, [], none⟩
  else
    let file_name := basename file_path
    let target_path := joinPath h.target_dir file_name
    match o.existsRaise with
    | some msg => ⟨h, fs, [.existsCheck file_path], some msg⟩
    | none =>
      if file_path ∉ fs.files then
        ⟨h, fs, [.existsCheck file_path], none⟩
      else
        match o.sleepRaise with
        | some msg => ⟨h, fs, [.existsCheck file_path, .sleepOp], some msg⟩
        | none =>
          match o.copyRaise with
          | some msg =>
            ⟨h, fs, [.existsCheck file_path, .sleepOp, .copyOp file_path target_path], some msg⟩
          | none =>
            let fs1 : FS := ⟨insert target_path fs.files⟩
            match o.unlinkRaise with
            | some msg =>
              ⟨h, fs1,
               [.existsCheck file_path, .sleepOp, .copyOp file_path target_path,
                .unlinkOp file_path], some msg⟩
            | none =>
              let fs2 : FS := ⟨fs1.files.erase file_path⟩
              let pf1 := insert file_path h.processed_files
              let pf2 := if pf1.card > 1000 then (∅ : Finset String) else pf1
              ⟨⟨h.target_dir, pf2⟩, fs2,
               [.existsCheck file_path, .sleepOp, .copyOp file_path target_path,
                .unlinkOp file_path], none⟩

/-- The body of `_process_file` with the `try`/`except` removed: the same
computation, but a raising primitive yields `Except.error` carrying the
message together with the handler state, filesystem and trace at the point of
the raise. -/
def processFileBody (o : Oracle) (h : Handler) (fs : FS) (file_path : String) :
    Except (String × Handler × FS × List Op) (Handler × FS × List Op) :=
  if file_path ∈ h.processed_files then
    .ok (h, fs, [])
  else
    let file_name := basename file_path
    let target_path := joinPath h.target_dir file_name
    match o.existsRaise with
    | some msg => .error (msg, h, fs, [.existsCheck file_path])
    | none =>
      if file_path ∉ fs.files then
        .ok (h, fs, [.existsCheck file_path])
      else
        match o.sleepRaise with
        | some msg => .error (msg, h, fs, [.existsCheck file_path, .sleepOp])
        | none =>
          match o.copyRaise with
          | some msg =>
            .error (msg, h, fs,
              [.existsCheck file_path, .sleepOp, .copyOp file_path target_path])
          | none =>
            let fs1 : FS := ⟨insert target_path fs.files⟩
            match o.unlinkRaise with
            | some msg =>
              .error (msg, h, fs1,
                [.existsCheck file_path, .sleepOp, .copyOp file_path target_path,
                 .unlinkOp file_path])
            | none =>
              let fs2 : FS := ⟨fs1.files.erase file_path⟩
              let pf1 := insert file_path h.processed_files
              let pf2 := if pf1.card > 1000 then (∅ : Finset String) else pf1
              .ok (⟨h.target_dir, pf2⟩, fs2,
                [.existsCheck file_path, .sleepOp, .copyOp file_path target_path,
                 .unlinkOp file_path])

/-- The `except Exception` clause: an error becomes a logged normal return. -/
def handleExcept :
    Except (String × Handler × FS × List Op) (Handler × FS × List Op) → PFResult
  | .ok (h, fs, ops) => ⟨h, fs, ops, none⟩
  | .error (msg, h, fs, ops) => ⟨h, fs, ops, some msg⟩

/-- A filesystem event as delivered by watchdog. -/
structure Event where
  is_directory : Bool
  src_path : String
  deriving DecidableEq

/-- `DownloadsHandler.on_created`: process the path iff the event is not a
directory and the path ends with `.data.json`. -/
def on_created (o : Oracle) (h : Handler) (fs : FS) (e : Event) : PFResult :=
  if !e.is_directory && strEndsWith e.src_path ".data.json" then
    processFile o h fs e.src_path
  else
    ⟨h, fs, [], none⟩

/-- `DownloadsHandler.on_modified`: same guard and logic as `on_created`. -/
def on_modified (o : Oracle) (h : Handler) (fs : FS) (e : Event) : PFResult :=
  if !e.is_directory && strEndsWith e.src_path ".data.json" then
    processFile o h fs e.src_path
  else
    ⟨h, fs, [], none⟩

/-- `get_downloads_dir`, with `platform.system()` and
`os.path.expanduser("~")` as parameters: the three OS branches of the
source. -/
def get_downloads_dir (system home : String) : String :=
  if system = "Windows" then joinPath home "Downloads"
  else if system = "Darwin" then joinPath home "Downloads"
  else joinPath home "Downloads"

/-- The spec's description of the same resolution: the single unbranched
home-relative path `~/Downloads`. -/
def get_downloads_dir_spec (_system home : String) : String :=
  joinPath home "Downloads"

/-! ### The startup sweep in `main` -/

/-- Outcome of the I/O performed on one file during the startup sweep. -/
inductive SweepOutcome where
  | ok
  | copyRaise
  | unlinkRaise
  deriving DecidableEq, Repr

/-- State threaded through the startup sweep: the set of file names present
in the downloads directory, the set of file names present in the target
directory, and the trace of attempted operations. -/
structure SweepState where
  src : Finset String
  tgt : Finset String
  ops : List Op
  deriving DecidableEq

/-- One iteration of the startup sweep loop in `main` (lines 94-110): for a
listed name ending in `.data.json`, check existence, copy (overwriting), and
unlink, with any exception caught and logged. -/
def sweepFile (oracle : String → SweepOutcome) (ddir tdir : String)
    (file : String) (st : SweepState) : SweepState :=
  if strEndsWith file ".data.json" then
    let full_path := joinPath ddir file
    let target_path := joinPath tdir file
    if file ∈ st.src then
      match oracle file with
      | .copyRaise =>
        { st with ops := st.ops ++ [.existsCheck full_path, .copyOp full_path target_path] }
      | .unlinkRaise =>
        { st with tgt := insert file st.tgt,
                  ops := st.ops ++ [.existsCheck full_path, .copyOp full_path target_path,
                                    .unlinkOp full_path] }
      | .ok =>
        ⟨st.src.erase file, insert file st.tgt,
         st.ops ++ [.existsCheck full_path, .copyOp full_path target_path,
                    .unlinkOp full_path]⟩
    else
      { st with ops := st.ops ++ [.existsCheck full_path] }
  else st

/-- The whole startup sweep: `for file in os.listdir(downloads_dir)` over the
snapshot listing. -/
def sweep (oracle : String → SweepOutcome) (ddir tdir : String)
    (listing : List String) (st : SweepState) : SweepState :=
  listing.foldl (fun s f => sweepFile oracle ddir tdir f s) st

/-- The sweep's initial state: the listing snapshot as the source contents,
a given target-directory content, an empty trace. -/
def initialSweepState (listing : List String) (tgt0 : Finset String) : SweepState :=
  ⟨listing.toFinset, tgt0, []⟩

/-- The operation trace of `main` up to the start of the observer: the sweep
runs first (lines 94-110), and only then is `DownloadsHandler` constructed
(line 113), whose `__init__` performs `os.makedirs(target_dir)`. -/
def mainOps (oracle : String → SweepOutcome) (ddir tdir : String)
    (listing : List String) (tgt0 : Finset String) : List Op :=
  (sweep oracle ddir tdir listing (initialSweepState listing tgt0)).ops ++ [.makedirsOp tdir]

/-- The property claimed of `main`: whenever the trace attempts a copy, a
`makedirs` has already been issued strictly earlier in the trace. -/
def dirEnsuredBeforeFirstCopy (ops : List Op) : Prop :=
  ∀ j op, ops.get? j = some op → op.isCopy = true →
    ∃ i op2, i < j ∧ ops.get? i = some op2 ∧ op2.isMakedirs = true

/-! ### Helper lemmas -/

lemma processFile_of_mem (o : Oracle) (h : Handler) (fs : FS) (p : String)
    (hp : p ∈ h.processed_files) : processFile o h fs p = ⟨h, fs, [], none⟩ := by
  simp [processFile, hp]

lemma processFile_ok (h : Handler) (fs : FS) (p : String)
    (hp : p ∉ h.processed_files) (hex : p ∈ fs.files) :
    processFile okOracle h fs p =
      ⟨⟨h.target_dir,
        if (insert p h.processed_files).card > 1000 then (∅ : Finset String)
        else insert p h.processed_files⟩,
       ⟨(insert (joinPath h.target_dir (basename p)) fs.files).erase p⟩,
       [.existsCheck p, .sleepOp, .copyOp p (joinPath h.target_dir (basename p)),
        .unlinkOp p], none⟩ := by
  simp [processFile, okOracle, hp, hex]

lemma sweepFile_src_subset (oracle : String → SweepOutcome) (ddir tdir f : String)
    (st : SweepState) : (sweepFile oracle ddir tdir f st).src ⊆ st.src := by
  unfold sweepFile
  by_cases h1 : strEndsWith f ".data.json" = true <;> simp [h1]
  by_cases h2 : f ∈ st.src <;> simp [h2]
  cases oracle f <;> simp [Finset.erase_subset]

lemma sweepFile_tgt_mono (oracle : String → SweepOutcome) (ddir tdir f : String)
    (st : SweepState) : st.tgt ⊆ (sweepFile oracle ddir tdir f st).tgt := by
  unfold sweepFile
  by_cases h1 : strEndsWith f ".data.json" = true <;> simp [h1]
  by_cases h2 : f ∈ st.src <;> simp [h2]
  cases oracle f <;> simp [Finset.subset_insert]

lemma sweep_src_subset (oracle : String → SweepOutcome) (ddir tdir : String)
    (l : List String) (st : SweepState) :
    (sweep oracle ddir tdir l st).src ⊆ st.src := by
  induction l generalizing st with
  | nil => exact fun _ hx => hx
  | cons g l ih =>
    exact fun x hx =>
      sweepFile_src_subset oracle ddir tdir g st (ih (sweepFile oracle ddir tdir g st) hx)

lemma sweep_tgt_mono (oracle : String → SweepOutcome) (ddir tdir : String)
    (l : List String) (st : SweepState) :
    st.tgt ⊆ (sweep oracle ddir tdir l st).tgt := by
  induction l generalizing st with
  | nil => exact fun _ hx => hx
  | cons g l ih =>
    exact fun x hx =>
      ih (sweepFile oracle ddir tdir g st) (sweepFile_tgt_mono oracle ddir tdir g st hx)

lemma sweepFile_mem_src_of_ne (oracle : String → SweepOutcome) (ddir tdir g f : String)
    (st : SweepState) (hne : f ≠ g) (hf : f ∈ st.src) :
    f ∈ (sweepFile oracle ddir tdir g st).src := by
  unfold sweepFile
  by_cases h1 : strEndsWith g ".data.json" = true <;> simp [h1, hf]
  by_cases h2 : g ∈ st.src <;> simp [h2, hf]
  cases oracle g <;> simp [Finset.mem_erase, hne, hf]

lemma sweep_mem_src (oracle : String → SweepOutcome) (ddir tdir f : String)
    (l : List String) (st : SweepState) (hl : ∀ g ∈ l, g ≠ f) (hf : f ∈ st.src) :
    f ∈ (sweep oracle ddir tdir l st).src := by
  induction l generalizing st with
  | nil => exact hf
  | cons g l ih =>
    exact ih (sweepFile oracle ddir tdir g st) (fun a ha => hl a (List.mem_cons_of_mem g ha))
      (sweepFile_mem_src_of_ne oracle ddir tdir g f st
        (fun hfg => hl g (List.mem_cons_self g l) hfg.symm) hf)

lemma sweepFile_ops_no_makedirs (oracle : String → SweepOutcome) (ddir tdir f : String)
    (st : SweepState) (hst : ∀ op ∈ st.ops, op.isMakedirs = false) :
    ∀ op ∈ (sweepFile oracle ddir tdir f st).ops, op.isMakedirs = false := by
  unfold sweepFile
  by_cases h1 : strEndsWith f ".data.json" = true <;> simp [h1]
  · by_cases h2 : f ∈ st.src <;> simp [h2]
    · cases oracle f <;> intro op hop <;>
        · simp only [List.mem_append, List.mem_cons, List.not_mem_nil, or_false] at hop
          rcases hop with hop | h
          · exact hst op hop
          · rcases h with rfl | rfl | rfl <;> rfl
    · intro op hop
      rcases hop with hop | rfl
      · exact hst op hop
      · rfl
  · exact hst

lemma sweep_ops_no_makedirs (oracle : String → SweepOutcome) (ddir tdir : String)
    (l : List String) (st : SweepState) (hst : ∀ op ∈ st.ops, op.isMakedirs = false) :
    ∀ op ∈ (sweep oracle ddir tdir l st).ops, op.isMakedirs = false := by
  induction l generalizing st with
  | nil => exact hst
  | cons g l ih =>
    exact ih (sweepFile oracle ddir tdir g st)
      (sweepFile_ops_no_makedirs oracle ddir tdir g st hst)

/-! ### Claim theorems -/

/-- C10: the seen-set membership check precedes every filesystem access in
`_process_file`: for a path already in the seen-set the call performs no
operation at all and leaves the handler state and the filesystem unchanged. -/
theorem seen_member_noop_frame (o : Oracle) (h : Handler) (fs : FS) (p : String)
    (hp : p ∈ h.processed_files) :
    processFile o h fs p = ⟨h, fs, [], none⟩ :=
  processFile_of_mem o h fs p hp

/-- Witness for `seen_member_noop_frame` at a concrete input. -/
theorem seen_member_noop_frame_witness :
    processFile okOracle ⟨"t", {"d/a.data.json"}⟩ ⟨∅⟩ "d/a.data.json" =
      ⟨⟨"t", {"d/a.data.json"}⟩, ⟨∅⟩, [], none⟩ :=
  seen_member_noop_frame okOracle ⟨"t", {"d/a.data.json"}⟩ ⟨∅⟩ "d/a.data.json" (by decide)

/-- C7: if the source path no longer exists when `_process_file` reaches the
existence check (and the path is not in the seen-set), the call logs and
returns: only the existence check is attempted, no copy, no delete, no error
propagates, and the seen-set and filesystem are unchanged. -/
theorem vanished_file_skipped (o : Oracle) (h : Handler) (fs : FS) (p : String)
    (hp : p ∉ h.processed_files) (he : o.existsRaise = none) (hnx : p ∉ fs.files) :
    processFile o h fs p = ⟨h, fs, [Op.existsCheck p], none⟩ := by
  simp [processFile, hp, he, hnx]

/-- Witness for `vanished_file_skipped` at a concrete input. -/
theorem vanished_file_skipped_witness :
    processFile okOracle ⟨"t", ∅⟩ ⟨∅⟩ "d/a.data.json" =
      ⟨⟨"t", ∅⟩, ⟨∅⟩, [Op.existsCheck "d/a.data.json"], none⟩ :=
  vanished_file_skipped okOracle ⟨"t", ∅⟩ ⟨∅⟩ "d/a.data.json" (by decide) rfl (by decide)

/-- C8: `get_downloads_dir` returns the user's home directory joined with
`Downloads` on every operating-system branch; the three branches refine the
single unbranched resolution. -/
theorem get_downloads_dir_unbranched (system home : String) :
    get_downloads_dir system home = get_downloads_dir_spec system home := by
  unfold get_downloads_dir get_downloads_dir_spec
  split_ifs <;> rfl

/-- C4: `_process_file` equals the `except`-handling of its raw `try` body:
every exception raised during the existence check, the settling delay, the
copy or the delete is caught and turned into a logged normal return; no
exception propagates to the caller. -/
theorem process_file_catches_all_exceptions (o : Oracle) (h : Handler) (fs : FS)
    (p : String) :
    processFile o h fs p = handleExcept (processFileBody o h fs p) := by
  rcases o with ⟨e, s, c, u⟩
  by_cases hp : p ∈ h.processed_files
  · simp [processFile, processFileBody, handleExcept, hp]
  · by_cases hex : p ∈ fs.files <;>
      cases e <;> cases s <;> cases c <;> cases u <;>
        simp [processFile, processFileBody, handleExcept, hp, hex]

lemma processFile_handler_cases (o : Oracle) (h : Handler) (fs : FS) (p : String) :
    (processFile o h fs p).handler = h ∨
    (processFile o h fs p).handler =
      ⟨h.target_dir,
       if (insert p h.processed_files).card > 1000 then (∅ : Finset String)
       else insert p h.processed_files⟩ := by
  rcases o with ⟨e, s, c, u⟩
  by_cases hp : p ∈ h.processed_files
  · left; simp [processFile, hp]
  · by_cases hex : p ∈ fs.files
    · cases e <;> cases s <;> cases c <;> cases u <;>
        simp [processFile, hp, hex]
    · cases e <;> simp [processFile, hp, hex]

/-- C5: the seen-set is bounded: if it holds at most 1000 entries when
`_process_file` is called, it holds at most 1000 entries when the call
returns (the path is inserted on success, and the set is cleared entirely
whenever its size exceeds 1000). -/
theorem seen_set_bounded (o : Oracle) (h : Handler) (fs : FS) (p : String)
    (hcard : h.processed_files.card ≤ 1000) :
    (processFile o h fs p).handler.processed_files.card ≤ 1000 := by
  rcases processFile_handler_cases o h fs p with hh | hh
  · rw [hh]; exact hcard
  · rw [hh]
    dsimp only
    split_ifs with hgt
    · simp
    · omega

/-- Witness for `seen_set_bounded` at a concrete input. -/
theorem seen_set_bounded_witness :
    (processFile okOracle ⟨"t", ∅⟩ ⟨{"d/a.data.json"}⟩ "d/a.data.json").handler.processed_files.card ≤ 1000 :=
  seen_set_bounded okOracle ⟨"t", ∅⟩ ⟨{"d/a.data.json"}⟩ "d/a.data.json" (by decide)

/-- The result of `_process_file` when every step succeeds. -/
def successResult (h : Handler) (fs : FS) (p : String) : PFResult :=
  ⟨⟨h.target_dir,
    if (insert p h.processed_files).card > 1000 then (∅ : Finset String)
    else insert p h.processed_files⟩,
   ⟨(insert (joinPath h.target_dir (basename p)) fs.files).erase p⟩,
   [.existsCheck p, .sleepOp, .copyOp p (joinPath h.target_dir (basename p)),
    .unlinkOp p], none⟩

lemma processFile_shape (o : Oracle) (h : Handler) (fs : FS) (p : String)
    (hp : p ∉ h.processed_files) :
    ((processFile o h fs p).handler = h ∧ (processFile o h fs p).caught.isSome = true) ∨
    ((processFile o h fs p).handler = h ∧ (processFile o h fs p).caught = none) ∨
    processFile o h fs p = successResult h fs p := by
  rcases o with ⟨e, s, c, u⟩
  by_cases hex : p ∈ fs.files
  · cases e <;> cases s <;> cases c <;> cases u <;>
      simp [processFile, successResult, hp, hex]
  · cases e <;> simp [processFile, successResult, hp, hex]

/-- C9: a path is added to the seen-set only after both the copy and the
delete completed: when an exception is caught the handler state (hence the
seen-set) is unchanged, and when the path ends up in the seen-set the call
succeeded and its trace contains the copy and the delete. -/
theorem seen_set_only_on_success (o : Oracle) (h : Handler) (fs : FS) (p : String) :
    ((processFile o h fs p).caught.isSome = true →
      (processFile o h fs p).handler = h) ∧
    (p ∉ h.processed_files →
      p ∈ (processFile o h fs p).handler.processed_files →
      (processFile o h fs p).caught = none ∧
      Op.copyOp p (joinPath h.target_dir (basename p)) ∈ (processFile o h fs p).ops ∧
      Op.unlinkOp p ∈ (processFile o h fs p).ops) := by
  constructor
  · intro hc
    by_cases hp : p ∈ h.processed_files
    · rw [processFile_of_mem o h fs p hp]
    · rcases processFile_shape o h fs p hp with ⟨hh, _⟩ | ⟨hh, _⟩ | hs
      · exact hh
      · exact hh
      · rw [hs] at hc
        simp [successResult] at hc
  · intro hnp hmem
    rcases processFile_shape o h fs p hnp with ⟨hh, _⟩ | ⟨hh, _⟩ | hs
    · rw [hh] at hmem
      exact absurd hmem hnp
    · rw [hh] at hmem
      exact absurd hmem hnp
    · rw [hs]
      refine ⟨rfl, ?_, ?_⟩ <;> simp [successResult]

/-- Witness for `seen_set_only_on_success` at a concrete input. -/
theorem seen_set_only_on_success_witness :
    (processFile okOracle ⟨"t", ∅⟩ ⟨{"d/a.data.json"}⟩ "d/a.data.json").caught = none ∧
    Op.copyOp "d/a.data.json" (joinPath "t" (basename "d/a.data.json")) ∈
      (processFile okOracle ⟨"t", ∅⟩ ⟨{"d/a.data.json"}⟩ "d/a.data.json").ops ∧
    Op.unlinkOp "d/a.data.json" ∈
      (processFile okOracle ⟨"t", ∅⟩ ⟨{"d/a.data.json"}⟩ "d/a.data.json").ops :=
  (seen_set_only_on_success okOracle ⟨"t", ∅⟩ ⟨{"d/a.data.json"}⟩ "d/a.data.json").2
    (by decide) (by decide)

/-- C6: a create or modify event triggers `_process_file` exactly when the
event is not for a directory and the path ends with `.data.json`; for a
directory event or a non-matching name, both handlers leave everything
unchanged and attempt no operation. -/
theorem relocation_trigger_iff (o : Oracle) (h : Handler) (fs : FS) (e : Event) :
    ((e.is_directory = false ∧ strEndsWith e.src_path ".data.json" = true) →
      on_created o h fs e = processFile o h fs e.src_path ∧
      on_modified o h fs e = processFile o h fs e.src_path) ∧
    ((e.is_directory = true ∨ strEndsWith e.src_path ".data.json" = false) →
      on_created o h fs e = ⟨h, fs, [], none⟩ ∧
      on_modified o h fs e = ⟨h, fs, [], none⟩) := by
  constructor
  · rintro ⟨hd, hs⟩
    constructor <;> simp [on_created, on_modified, hd, hs]
  · rintro (hd | hs)
    · constructor <;> simp [on_created, on_modified, hd]
    · constructor <;> simp [on_created, on_modified, hs]

/-- Witness for `relocation_trigger_iff` at a concrete input (a directory
event is not relocated). -/
theorem relocation_trigger_iff_witness :
    on_created okOracle ⟨"t", ∅⟩ ⟨∅⟩ ⟨true, "a.data.json"⟩ = ⟨⟨"t", ∅⟩, ⟨∅⟩, [], none⟩ ∧
    on_modified okOracle ⟨"t", ∅⟩ ⟨∅⟩ ⟨true, "a.data.json"⟩ = ⟨⟨"t", ∅⟩, ⟨∅⟩, [], none⟩ :=
  (relocation_trigger_iff okOracle ⟨"t", ∅⟩ ⟨∅⟩ ⟨true, "a.data.json"⟩).2 (Or.inl rfl)

/-- C3: relocation is idempotent per path: a create notification followed by
a modify notification for the same (unseen, existing, matching) path yields
exactly one copy and exactly one delete across the two calls, the second
call being suppressed by the seen-set. -/
theorem create_then_modify_one_cycle (h : Handler) (fs : FS) (p : String)
    (hp : p ∉ h.processed_files) (hex : p ∈ fs.files)
    (hsuf : strEndsWith p ".data.json" = true)
    (hcard : (insert p h.processed_files).card ≤ 1000) :
    (((on_created okOracle h fs ⟨false, p⟩).ops ++
      (on_modified okOracle (on_created okOracle h fs ⟨false, p⟩).handler
        (on_created okOracle h fs ⟨false, p⟩).fs ⟨false, p⟩).ops).countP Op.isCopy = 1) ∧
    (((on_created okOracle h fs ⟨false, p⟩).ops ++
      (on_modified okOracle (on_created okOracle h fs ⟨false, p⟩).handler
        (on_created okOracle h fs ⟨false, p⟩).fs ⟨false, p⟩).ops).countP Op.isUnlink = 1) := by
  have hnotgt : ¬ (insert p h.processed_files).card > 1000 := by omega
  have h1 : on_created okOracle h fs ⟨false, p⟩ =
      ⟨⟨h.target_dir, insert p h.processed_files⟩,
       ⟨(insert (joinPath h.target_dir (basename p)) fs.files).erase p⟩,
       [.existsCheck p, .sleepOp, .copyOp p (joinPath h.target_dir (basename p)),
        .unlinkOp p], none⟩ := by
    simp only [on_created, hsuf, Bool.not_false, Bool.true_and, if_true]
    rw [processFile_ok h fs p hp hex, if_neg hnotgt]
  rw [h1]
  have h2 : on_modified okOracle ⟨h.target_dir, insert p h.processed_files⟩
      ⟨(insert (joinPath h.target_dir (basename p)) fs.files).erase p⟩ ⟨false, p⟩ =
      ⟨⟨h.target_dir, insert p h.processed_files⟩,
       ⟨(insert (joinPath h.target_dir (basename p)) fs.files).erase p⟩, [], none⟩ := by
    simp only [on_modified, hsuf, Bool.not_false, Bool.true_and, if_true]
    exact processFile_of_mem okOracle _ _ p (Finset.mem_insert_self p _)
  rw [h2]
  constructor <;>
    simp [List.countP_append, List.countP_cons, Op.isCopy, Op.isUnlink]

/-- Witness for `create_then_modify_one_cycle` at a concrete input. -/
theorem create_then_modify_one_cycle_witness :
    (((on_created okOracle ⟨"t", ∅⟩ ⟨{"d/a.data.json"}⟩ ⟨false, "d/a.data.json"⟩).ops ++
      (on_modified okOracle
        (on_created okOracle ⟨"t", ∅⟩ ⟨{"d/a.data.json"}⟩ ⟨false, "d/a.data.json"⟩).handler
        (on_created okOracle ⟨"t", ∅⟩ ⟨{"d/a.data.json"}⟩ ⟨false, "d/a.data.json"⟩).fs
        ⟨false, "d/a.data.json"⟩).ops).countP Op.isCopy = 1) ∧
    (((on_created okOracle ⟨"t", ∅⟩ ⟨{"d/a.data.json"}⟩ ⟨false, "d/a.data.json"⟩).ops ++
      (on_modified okOracle
        (on_created okOracle ⟨"t", ∅⟩ ⟨{"d/a.data.json"}⟩ ⟨false, "d/a.data.json"⟩).handler
        (on_created okOracle ⟨"t", ∅⟩ ⟨{"d/a.data.json"}⟩ ⟨false, "d/a.data.json"⟩).fs
        ⟨false, "d/a.data.json"⟩).ops).countP Op.isUnlink = 1) :=
  create_then_modify_one_cycle ⟨"t", ∅⟩ ⟨{"d/a.data.json"}⟩ "d/a.data.json"
    (by decide) (by decide) (by decide) (by decide)

/-- C1: every file named `*.data.json` listed in the watched directory at
startup on which no I/O operation fails ends up, after the initial sweep, in
the target directory under the same name and no longer in the watched
directory. -/
theorem initial_sweep_relocates_matching (oracle : String → SweepOutcome)
    (ddir tdir : String) (listing : List String) (tgt0 : Finset String) (f : String)
    (hnd : listing.Nodup) (hf : f ∈ listing)
    (hsuf : strEndsWith f ".data.json" = true) (hok : oracle f = .ok) :
    f ∈ (sweep oracle ddir tdir listing (initialSweepState listing tgt0)).tgt ∧
    f ∉ (sweep oracle ddir tdir listing (initialSweepState listing tgt0)).src := by
  obtain ⟨l1, l2, rfl⟩ := List.append_of_mem hf
  rw [List.nodup_append] at hnd
  obtain ⟨hnd1, hnd2, hdisj⟩ := hnd
  have hf1 : ∀ g ∈ l1, g ≠ f := fun g hg hgf => hdisj hg (hgf ▸ List.mem_cons_self f l2)
  have hf2 : f ∉ l2 := (List.nodup_cons.mp hnd2).1
  have hsplit : sweep oracle ddir tdir (l1 ++ f :: l2) (initialSweepState (l1 ++ f :: l2) tgt0) =
      sweep oracle ddir tdir l2
        (sweepFile oracle ddir tdir f
          (sweep oracle ddir tdir l1 (initialSweepState (l1 ++ f :: l2) tgt0))) := by
    simp [sweep, List.foldl_append]
  rw [hsplit]
  have hmem0 : f ∈ (initialSweepState (l1 ++ f :: l2) tgt0).src := by
    simp [initialSweepState]
  have hmem1 : f ∈ (sweep oracle ddir tdir l1 (initialSweepState (l1 ++ f :: l2) tgt0)).src :=
    sweep_mem_src oracle ddir tdir f l1 _ hf1 hmem0
  set st1 := sweep oracle ddir tdir l1 (initialSweepState (l1 ++ f :: l2) tgt0) with hst1
  have hstep : sweepFile oracle ddir tdir f st1 =
      ⟨st1.src.erase f, insert f st1.tgt,
       st1.ops ++ [.existsCheck (joinPath ddir f), .copyOp (joinPath ddir f) (joinPath tdir f),
                   .unlinkOp (joinPath ddir f)]⟩ := by
    simp [sweepFile, hsuf, hmem1, hok]
  rw [hstep]
  constructor
  · exact sweep_tgt_mono oracle ddir tdir l2 _ (Finset.mem_insert_self f st1.tgt)
  · intro hcon
    have := sweep_src_subset oracle ddir tdir l2
      ⟨st1.src.erase f, insert f st1.tgt, _⟩ hcon
    exact (Finset.not_mem_erase f st1.src) this

/-- Witness for `initial_sweep_relocates_matching` at a concrete input. -/
theorem initial_sweep_relocates_matching_witness :
    "a.data.json" ∈ (sweep (fun _ => SweepOutcome.ok) "d" "t" ["a.data.json"]
        (initialSweepState ["a.data.json"] ∅)).tgt ∧
    "a.data.json" ∉ (sweep (fun _ => SweepOutcome.ok) "d" "t" ["a.data.json"]
        (initialSweepState ["a.data.json"] ∅)).src :=
  initial_sweep_relocates_matching (fun _ => SweepOutcome.ok) "d" "t" ["a.data.json"] ∅
    "a.data.json" (by decide) (by decide) (by decide) rfl

/-- C2 counterexample: with one matching file in the listing, the trace of
`main` attempts the sweep's copy before any `makedirs`; the target directory
is not ensured before the sweep. -/
theorem sweep_copy_before_makedirs_cex :
    ¬ dirEnsuredBeforeFirstCopy
        (mainOps (fun _ => SweepOutcome.ok) "d" "t" ["a.data.json"] ∅) := by
  intro hcl
  have hops : mainOps (fun _ => SweepOutcome.ok) "d" "t" ["a.data.json"] ∅ =
      [Op.existsCheck "d/a.data.json", Op.copyOp "d/a.data.json" "t/a.data.json",
       Op.unlinkOp "d/a.data.json", Op.makedirsOp "t"] := by decide
  rw [hops] at hcl
  obtain ⟨i, op2, hi, hget, hmk⟩ :=
    hcl 1 (Op.copyOp "d/a.data.json" "t/a.data.json") rfl rfl
  interval_cases i
  simp only [List.get?] at hget
  cases hget
  cases hmk

/-- C2 amended: `main` performs the whole startup sweep first and issues the
`makedirs` for the target directory only afterwards (in the handler's
constructor, before the observer starts): the `makedirs` is the last
operation of the trace and no earlier operation is a `makedirs`. -/
theorem makedirs_only_after_sweep (oracle : String → SweepOutcome)
    (ddir tdir : String) (listing : List String) (tgt0 : Finset String) :
    ∃ pre, mainOps oracle ddir tdir listing tgt0 = pre ++ [Op.makedirsOp tdir] ∧
      ∀ op ∈ pre, op.isMakedirs = false :=
  ⟨(sweep oracle ddir tdir listing (initialSweepState listing tgt0)).ops, rfl,
    sweep_ops_no_makedirs oracle ddir tdir listing (initialSweepState listing tgt0)
      (by simp [initialSweepState])⟩

end WatchDownloads
